import Mathlib

/-!
Shallow embedding of the stress-ng core mechanisms covered by the spec:
the process-shared heap allocator (src/core-shared-heap.c), the bad-address
fault sandbox (src/stress-sysbadaddr.c) and the sysfs concurrent walker
(src/stress-sysfs.c).  Pointers into the shared region are modelled as byte
offsets from the mmapped base (the base itself is page aligned), machine
arithmetic is modelled with Nat/Int, and every lock acquisition outcome is an
explicit boolean input.
-/

namespace StressNG

/-! ## Shared heap allocator (src/core-shared-heap.c) -/

/-- Model of sizeof(void *) on the 64-bit targets stress-ng runs on. -/
def ptrBytes : Nat := 8

/-- Rounding used by stress_shared_heap_malloc, line 111:
`(size + sizeof(void *) - 1) & ~(sizeof(void *) - 1)`.  For the power-of-two
pointer size this mask arithmetic equals rounding up to a multiple of 8. -/
def roundup_ptr (n : Nat) : Nat := (n + (ptrBytes - 1)) / ptrBytes * ptrBytes

/-- State of `g_shared->shared_heap` as used by the allocator paths:
`heap_size`, `offset`, `out_of_memory` and the interned string list.
`str_list` holds, per published node, the offset of its `str` payload
(`&heap_str->str`, i.e. node base + sizeof next pointer) and its content.
`mem` records every string copied into the heap by `strcpy`, published or
not, so that unpublished-but-valid dups can be talked about. -/
structure SharedHeap where
  heap_size : Nat
  offset : Nat
  out_of_memory : Bool
  str_list : List (Nat × String)
  mem : List (Nat × String)
  deriving Repr, DecidableEq

/-- State set up by stress_shared_heap_init (lines 45-69) after a successful
mmap and lock creation: zero offset, cleared OOM flag, empty list.
`heapSize` stands for the page-rounded heap_size the init computes. -/
def stress_shared_heap_init_state (heapSize : Nat) : SharedHeap :=
  { heap_size := heapSize
    offset := 0
    out_of_memory := false
    str_list := []
    mem := [] }

/-- stress_shared_heap_malloc (lines 96-115).  `lockOk` is the outcome of the
stress_lock_acquire call; on failure the function returns NULL and
touches nothing.  `heap_free` is `ssize_t`, hence the Int subtraction: an
offset a few bytes past heap_size (possible via rounding) yields a negative
free count, not a huge unsigned one.  On success the returned pointer is the
current offset and the offset advances by the pointer-rounded size. -/
def stress_shared_heap_malloc (s : SharedHeap) (size : Nat) (lockOk : Bool) :
    Option Nat × SharedHeap :=
  if ¬ lockOk then
    (none, s)
  else if (s.heap_size : Int) - (s.offset : Int) < (size : Int) then
    (none, { s with out_of_memory := true })
  else
    (some s.offset, { s with offset := s.offset + roundup_ptr size })

/-- Linear scan of the interned-string list performed by
stress_shared_heap_dup_const, lines 133-138 (`strcmp(str, heap_str->str)`). -/
def str_list_find (str : String) : List (Nat × String) → Option Nat
  | [] => none
  | e :: rest => if str = e.2 then some e.1 else str_list_find str rest

/-- Allocation size computed at line 140: `strlen(str) + 1 + sizeof(void *)`
(NUL terminator plus the node's next pointer). -/
def dup_len (str : String) : Nat := str.utf8ByteSize + 1 + ptrBytes

/-- stress_shared_heap_dup_const (lines 125-163).  The three booleans are the
outcomes of the three lock acquisitions: the scan lock (line 130), the lock
acquired inside stress_shared_heap_malloc (line 101), and the publish lock
(line 152).  If the scan finds an equal string its existing payload pointer
is returned and nothing changes.  Otherwise the string is copied into a fresh
malloc'd node; if the publish lock fails the node stays unpublished but its
pointer is still returned. -/
def stress_shared_heap_dup_const (s : SharedHeap) (str : String)
    (lock1 lockM lock2 : Bool) : Option Nat × SharedHeap :=
  if ¬ lock1 then
    (none, s)
  else
    match str_list_find str s.str_list with
    | some p => (some p, s)
    | none =>
      match stress_shared_heap_malloc s (dup_len str) lockM with
      | (none, s1) => (none, s1)
      | (some base, s1) =>
        let p := base + ptrBytes
        let s2 := { s1 with mem := (p, str) :: s1.mem }
        if ¬ lock2 then
          (some p, s2)
        else
          (some p, { s2 with str_list := (p, str) :: s2.str_list })

/-- Whole-region state as touched by stress_shared_heap_deinit: whether the
heap mapping and the lock still exist, plus the bookkeeping fields it
leaves alone. -/
structure SharedHeapRegion where
  heap : Bool
  lock : Bool
  out_of_memory : Bool
  offset : Nat
  heap_size : Nat
  deriving Repr, DecidableEq

/-- stress_shared_heap_deinit (lines 71-88).  Returns the new state together
with whether this call performed the munmap and whether it destroyed the
lock.  Each action is guarded by a non-NULL check and nulls its pointer;
the OOM flag is cleared unconditionally. -/
def stress_shared_heap_deinit (s : SharedHeapRegion) :
    SharedHeapRegion × Bool × Bool :=
  let didUnmap := s.heap
  let heap1 := if s.heap then false else s.heap
  let didDestroy := s.lock
  let lock1 := if s.lock then false else s.lock
  ({ s with heap := heap1, lock := lock1, out_of_memory := false },
   didUnmap, didDestroy)

/-! ### Runs of allocator operations -/

/-- One shared-heap operation, with its lock-acquisition outcomes. -/
inductive HeapOp where
  | malloc (size : Nat) (lk : Bool)
  | dup (str : String) (l1 lm l2 : Bool)
  deriving Repr, DecidableEq

/-- State transition of a single heap operation. -/
def heap_step (s : SharedHeap) : HeapOp → SharedHeap
  | .malloc n lk => (stress_shared_heap_malloc s n lk).2
  | .dup c l1 lm l2 => (stress_shared_heap_dup_const s c l1 lm l2).2

/-- State after a sequence of heap operations. -/
def heap_run (s : SharedHeap) (ops : List HeapOp) : SharedHeap :=
  ops.foldl heap_step s

/-- Chunks returned by a sequence of stress_shared_heap_malloc calls (all
lock acquisitions succeeding): list of (pointer, requested size) for the
successful calls, plus the final state. -/
def alloc_run (s : SharedHeap) : List Nat → List (Nat × Nat) × SharedHeap
  | [] => ([], s)
  | n :: rest =>
    match stress_shared_heap_malloc s n true with
    | (some p, s1) =>
      let r := alloc_run s1 rest
      ((p, n) :: r.1, r.2)
    | (none, s1) => alloc_run s1 rest

/-- stress_shared_heap_dup_const with every lock acquisition succeeding. -/
def dup_clean (s : SharedHeap) (c : String) : Option Nat × SharedHeap :=
  stress_shared_heap_dup_const s c true true true

/-- Results and final state of a sequence of clean dup_const calls. -/
def dup_run (s : SharedHeap) : List String → List (Option Nat) × SharedHeap
  | [] => ([], s)
  | c :: rest =>
    let r := dup_clean s c
    let rr := dup_run r.2 rest
    (r.1 :: rr.1, rr.2)

/-- State reached by interning the strings of `l` in order, starting from a
freshly initialised heap of capacity `cap`. -/
def heap_after (cap : Nat) (l : List String) : SharedHeap :=
  (dup_run (stress_shared_heap_init_state cap) l).2

/-! ### Basic lemmas about the allocator -/

theorem roundup_ptr_le (n : Nat) : n ≤ roundup_ptr n := by
  unfold roundup_ptr ptrBytes
  omega

theorem roundup_ptr_mod (n : Nat) : roundup_ptr n % ptrBytes = 0 := by
  unfold roundup_ptr ptrBytes
  omega

theorem roundup_ptr_dup_len_ge (c : String) : 16 ≤ roundup_ptr (dup_len c) := by
  unfold roundup_ptr dup_len ptrBytes
  omega

theorem malloc_heap_size (s : SharedHeap) (n : Nat) (lk : Bool) :
    (stress_shared_heap_malloc s n lk).2.heap_size = s.heap_size := by
  unfold stress_shared_heap_malloc
  by_cases h : lk <;> by_cases h2 : (s.heap_size : Int) - (s.offset : Int) < (n : Int) <;>
    simp [h, h2]

theorem malloc_offset_mono (s : SharedHeap) (n : Nat) (lk : Bool) :
    s.offset ≤ (stress_shared_heap_malloc s n lk).2.offset := by
  unfold stress_shared_heap_malloc
  by_cases h : lk <;> by_cases h2 : (s.heap_size : Int) - (s.offset : Int) < (n : Int) <;>
    simp [h, h2]

theorem malloc_lock_fail (s : SharedHeap) (n : Nat) :
    stress_shared_heap_malloc s n false = (none, s) := by
  simp [stress_shared_heap_malloc]

theorem malloc_fail (s : SharedHeap) (n : Nat)
    (h : (s.heap_size : Int) - (s.offset : Int) < (n : Int)) :
    stress_shared_heap_malloc s n true = (none, { s with out_of_memory := true }) := by
  simp [stress_shared_heap_malloc, h]

theorem malloc_success (s : SharedHeap) (n : Nat)
    (h : ¬ ((s.heap_size : Int) - (s.offset : Int) < (n : Int))) :
    stress_shared_heap_malloc s n true =
      (some s.offset, { s with offset := s.offset + roundup_ptr n }) := by
  simp [stress_shared_heap_malloc, h]

theorem malloc_oom_mono (s : SharedHeap) (n : Nat) (lk : Bool)
    (h : s.out_of_memory = true) :
    (stress_shared_heap_malloc s n lk).2.out_of_memory = true := by
  unfold stress_shared_heap_malloc
  by_cases h1 : lk <;>
    by_cases h2 : (s.heap_size : Int) - (s.offset : Int) < (n : Int) <;>
      simp [h1, h2, h]

theorem dup_oom_mono (s : SharedHeap) (c : String) (l1 lm l2 : Bool)
    (h : s.out_of_memory = true) :
    (stress_shared_heap_dup_const s c l1 lm l2).2.out_of_memory = true := by
  unfold stress_shared_heap_dup_const
  by_cases h1 : l1
  · cases hf : str_list_find c s.str_list with
    | some p => simp [h1, hf, h]
    | none =>
      have hm := malloc_oom_mono s (dup_len c) lm h
      rcases hmm : stress_shared_heap_malloc s (dup_len c) lm with ⟨r, s1⟩
      rw [hmm] at hm
      cases r with
      | none => simpa [h1, hf, hmm] using hm
      | some base => by_cases h2 : l2 <;> simpa [h1, hf, hmm, h2] using hm
  · simp [h1, h]

theorem heap_step_oom_mono (s : SharedHeap) (op : HeapOp)
    (h : s.out_of_memory = true) : (heap_step s op).out_of_memory = true := by
  cases op with
  | malloc n lk => exact malloc_oom_mono s n lk h
  | dup c l1 lm l2 => exact dup_oom_mono s c l1 lm l2 h

theorem heap_run_oom_mono (ops : List HeapOp) :
    ∀ s : SharedHeap, s.out_of_memory = true →
      (heap_run s ops).out_of_memory = true := by
  induction ops with
  | nil => intro s h; exact h
  | cons op rest ih =>
    intro s h
    exact ih (heap_step s op) (heap_step_oom_mono s op h)

theorem alloc_run_chunks (sizes : List Nat) :
    ∀ s : SharedHeap, s.offset % ptrBytes = 0 →
      (∀ pn ∈ (alloc_run s sizes).1,
        s.offset ≤ pn.1 ∧ pn.1 + pn.2 ≤ s.heap_size ∧ pn.1 % ptrBytes = 0) ∧
      (alloc_run s sizes).1.Pairwise (fun a b => a.1 + a.2 ≤ b.1) := by
  induction sizes with
  | nil => intro s _; simp [alloc_run]
  | cons n rest ih =>
    intro s hs
    by_cases hfree : (s.heap_size : Int) - (s.offset : Int) < (n : Int)
    · have hrun : alloc_run s (n :: rest) =
          alloc_run { s with out_of_memory := true } rest := by
        simp [alloc_run, malloc_fail s n hfree]
      have := ih { s with out_of_memory := true } hs
      rw [hrun]
      exact this
    · have hrun : alloc_run s (n :: rest) =
          ((s.offset, n) :: (alloc_run { s with offset := s.offset + roundup_ptr n } rest).1,
           (alloc_run { s with offset := s.offset + roundup_ptr n } rest).2) := by
        simp [alloc_run, malloc_success s n hfree]
      have hmod : (s.offset + roundup_ptr n) % ptrBytes = 0 := by
        have h1 := roundup_ptr_mod n
        unfold ptrBytes at *
        omega
      have hih := ih { s with offset := s.offset + roundup_ptr n } hmod
      dsimp only at hih
      rw [hrun]
      have hn : s.offset + n ≤ s.heap_size := by omega
      constructor
      · intro pn hpn
        rcases List.mem_cons.mp hpn with heq | hmem
        · rw [heq]
          exact ⟨Nat.le_refl _, hn, hs⟩
        · have h3 := hih.1 pn hmem
          have h4 := roundup_ptr_le n
          exact ⟨by omega, h3.2.1, h3.2.2⟩
      · refine List.pairwise_cons.mpr ⟨?_, hih.2⟩
        intro b hb
        have h3 := hih.1 b hb
        have h4 := roundup_ptr_le n
        dsimp only
        omega

theorem dup_clean_notfound_fst (s : SharedHeap) (c : String)
    (hfind : str_list_find c s.str_list = none) :
    (dup_clean s c).1 = none ∨
      (dup_clean s c).1 = some (s.offset + ptrBytes) := by
  unfold dup_clean stress_shared_heap_dup_const
  by_cases h2 : (s.heap_size : Int) - (s.offset : Int) < ((dup_len c : Nat) : Int)
  · left
    simp [hfind, malloc_fail s _ h2]
  · right
    simp [hfind, malloc_success s _ h2]

/-- Claim C1: for every sequence of `allocate(n)` calls whose total size is at
most the region capacity, every chunk returned by stress_shared_heap_malloc
lies entirely within the mapped region, every returned pointer is
pointer-size aligned, and no two returned chunks overlap. -/
theorem claim_C1_alloc_chunks (cap : Nat) (sizes : List Nat)
    (_htotal : sizes.sum ≤ cap) :
    (∀ pn ∈ (alloc_run (stress_shared_heap_init_state cap) sizes).1,
        pn.1 + pn.2 ≤ cap ∧ pn.1 % ptrBytes = 0) ∧
    (alloc_run (stress_shared_heap_init_state cap) sizes).1.Pairwise
      (fun a b => a.1 + a.2 ≤ b.1 ∨ b.1 + b.2 ≤ a.1) := by
  have h := alloc_run_chunks sizes (stress_shared_heap_init_state cap) rfl
  constructor
  · intro pn hpn
    have h2 := h.1 pn hpn
    exact ⟨h2.2.1, h2.2.2⟩
  · exact h.2.imp (fun hab => Or.inl hab)

theorem claim_C1_witness :
    List.sum [10, 20] ≤ 100 ∧
    (((0 : Nat), (10 : Nat)).1 + ((0 : Nat), (10 : Nat)).2 ≤ 100 ∧
      ((0 : Nat), (10 : Nat)).1 % ptrBytes = 0) :=
  ⟨by decide,
   (claim_C1_alloc_chunks 100 [10, 20] (by decide)).1 (0, 10) (by decide)⟩

/-- Claim C5: an allocate call that fails because remaining capacity is less
than the requested size returns NULL, sets the out-of-memory flag, leaves
the offset unchanged, and the flag then stays true across every subsequent
allocate and dup-const operation of the run. -/
theorem claim_C5_oom_sticky (s : SharedHeap) (n : Nat) (ops : List HeapOp)
    (hfree : (s.heap_size : Int) - (s.offset : Int) < (n : Int)) :
    (stress_shared_heap_malloc s n true).1 = none ∧
    (stress_shared_heap_malloc s n true).2.out_of_memory = true ∧
    (stress_shared_heap_malloc s n true).2.offset = s.offset ∧
    (heap_run (stress_shared_heap_malloc s n true).2 ops).out_of_memory = true := by
  rw [malloc_fail s n hfree]
  exact ⟨rfl, rfl, rfl, heap_run_oom_mono ops _ rfl⟩

theorem claim_C5_witness :
    (((stress_shared_heap_init_state 16).heap_size : Int) -
        ((stress_shared_heap_init_state 16).offset : Int) < (32 : Int)) ∧
    ((stress_shared_heap_malloc (stress_shared_heap_init_state 16) 32 true).1 = none ∧
     (stress_shared_heap_malloc (stress_shared_heap_init_state 16) 32 true).2.out_of_memory = true ∧
     (stress_shared_heap_malloc (stress_shared_heap_init_state 16) 32 true).2.offset =
       (stress_shared_heap_init_state 16).offset ∧
     (heap_run (stress_shared_heap_malloc (stress_shared_heap_init_state 16) 32 true).2
        [HeapOp.malloc 4 true, HeapOp.dup "x" true true true]).out_of_memory = true) :=
  ⟨by decide,
   claim_C5_oom_sticky (stress_shared_heap_init_state 16) 32
     [HeapOp.malloc 4 true, HeapOp.dup "x" true true true] (by decide)⟩

/-- Claim C9: stress_shared_heap_deinit is idempotent; after one call the heap
pointer and lock are null and the out-of-memory flag is cleared, and a second
call performs no unmap and no lock destruction and leaves the state
unchanged. -/
theorem claim_C9_deinit_idempotent (s : SharedHeapRegion) :
    (stress_shared_heap_deinit s).1.heap = false ∧
    (stress_shared_heap_deinit s).1.lock = false ∧
    (stress_shared_heap_deinit s).1.out_of_memory = false ∧
    stress_shared_heap_deinit (stress_shared_heap_deinit s).1 =
      ((stress_shared_heap_deinit s).1, false, false) := by
  unfold stress_shared_heap_deinit
  by_cases h1 : s.heap <;> by_cases h2 : s.lock <;> simp [h1, h2]

/-- Claim C6: when dup-const finds no existing match, the copy into freshly
allocated space succeeds, and the second lock acquisition fails, it returns
the pointer to the valid newly copied string, the interned list head is left
unchanged, and a later equal-content call does not return that unpublished
pointer. -/
theorem claim_C6_unpublished_dup (s : SharedHeap) (c : String)
    (hfind : str_list_find c s.str_list = none)
    (hfree : ¬ ((s.heap_size : Int) - (s.offset : Int) < ((dup_len c : Nat) : Int))) :
    (stress_shared_heap_dup_const s c true true false).1 = some (s.offset + ptrBytes) ∧
    (s.offset + ptrBytes, c) ∈ (stress_shared_heap_dup_const s c true true false).2.mem ∧
    (stress_shared_heap_dup_const s c true true false).2.str_list = s.str_list ∧
    (dup_clean (stress_shared_heap_dup_const s c true true false).2 c).1 ≠
      some (s.offset + ptrBytes) := by
  have hd : stress_shared_heap_dup_const s c true true false =
      (some (s.offset + ptrBytes),
       { s with offset := s.offset + roundup_ptr (dup_len c),
                mem := (s.offset + ptrBytes, c) :: s.mem }) := by
    unfold stress_shared_heap_dup_const
    simp [hfind, malloc_success s _ hfree]
  rw [hd]
  refine ⟨rfl, List.mem_cons_self _ _, rfl, ?_⟩
  have h16 := roundup_ptr_dup_len_ge c
  rcases dup_clean_notfound_fst
      { s with offset := s.offset + roundup_ptr (dup_len c),
               mem := (s.offset + ptrBytes, c) :: s.mem } c hfind with hnone | hsome
  · rw [hnone]; simp
  · rw [hsome]
    simp only [ne_eq, Option.some.injEq]
    unfold ptrBytes at *
    omega

theorem claim_C6_witness :
    str_list_find "a" (stress_shared_heap_init_state 4096).str_list = none ∧
    ¬ (((stress_shared_heap_init_state 4096).heap_size : Int) -
        ((stress_shared_heap_init_state 4096).offset : Int) <
          ((dup_len "a" : Nat) : Int)) ∧
    ((stress_shared_heap_dup_const (stress_shared_heap_init_state 4096) "a" true true false).1 =
        some ((stress_shared_heap_init_state 4096).offset + ptrBytes) ∧
     ((stress_shared_heap_init_state 4096).offset + ptrBytes, "a") ∈
        (stress_shared_heap_dup_const (stress_shared_heap_init_state 4096) "a" true true false).2.mem ∧
     (stress_shared_heap_dup_const (stress_shared_heap_init_state 4096) "a" true true false).2.str_list =
        (stress_shared_heap_init_state 4096).str_list ∧
     (dup_clean (stress_shared_heap_dup_const (stress_shared_heap_init_state 4096) "a" true true false).2 "a").1 ≠
        some ((stress_shared_heap_init_state 4096).offset + ptrBytes)) :=
  ⟨by decide, by decide,
   claim_C6_unpublished_dup (stress_shared_heap_init_state 4096) "a" (by decide) (by decide)⟩

/-! ### Interning: invariants and stability -/

theorem dup_clean_found (s : SharedHeap) (c : String) (p : Nat)
    (hfind : str_list_find c s.str_list = some p) :
    dup_clean s c = (some p, s) := by
  unfold dup_clean stress_shared_heap_dup_const
  simp [hfind]

theorem dup_clean_notfound_fail (s : SharedHeap) (c : String)
    (hfind : str_list_find c s.str_list = none)
    (hfree : (s.heap_size : Int) - (s.offset : Int) < ((dup_len c : Nat) : Int)) :
    dup_clean s c = (none, { s with out_of_memory := true }) := by
  unfold dup_clean stress_shared_heap_dup_const
  simp [hfind, malloc_fail s _ hfree]

theorem dup_clean_notfound_success (s : SharedHeap) (c : String)
    (hfind : str_list_find c s.str_list = none)
    (hfree : ¬ ((s.heap_size : Int) - (s.offset : Int) < ((dup_len c : Nat) : Int))) :
    dup_clean s c =
      (some (s.offset + ptrBytes),
       { s with offset := s.offset + roundup_ptr (dup_len c),
                str_list := (s.offset + ptrBytes, c) :: s.str_list,
                mem := (s.offset + ptrBytes, c) :: s.mem }) := by
  unfold dup_clean stress_shared_heap_dup_const
  simp [hfind, malloc_success s _ hfree]

theorem str_list_find_mem {c : String} {p : Nat} :
    ∀ {l : List (Nat × String)}, str_list_find c l = some p → (p, c) ∈ l := by
  intro l
  induction l with
  | nil => intro h; simp [str_list_find] at h
  | cons e rest ih =>
    intro h
    unfold str_list_find at h
    by_cases he : c = e.2
    · simp [he] at h
      have hpe : (p, c) = e := by rw [← h, he]
      rw [hpe]
      exact List.mem_cons_self e rest
    · simp [he] at h
      exact List.mem_cons_of_mem e (ih h)

theorem str_list_find_none_not_mem {c : String} :
    ∀ {l : List (Nat × String)}, str_list_find c l = none → ∀ e ∈ l, c ≠ e.2 := by
  intro l
  induction l with
  | nil => intro _ e he; simp at he
  | cons a rest ih =>
    intro h e he
    unfold str_list_find at h
    by_cases ha : c = a.2
    · simp [ha] at h
    · simp [ha] at h
      rcases List.mem_cons.mp he with rfl | hmem
      · exact ha
      · exact ih h e hmem

/-- Structural invariant of the interned-string list: every published payload
pointer lies below the bump offset, pointers strictly decrease from the list
head (newest first), and contents are pairwise distinct. -/
def HeapInv (s : SharedHeap) : Prop :=
  (∀ e ∈ s.str_list, e.1 < s.offset) ∧
  s.str_list.Pairwise (fun a b => b.1 < a.1) ∧
  s.str_list.Pairwise (fun a b => a.2 ≠ b.2)

theorem heap_init_inv (cap : Nat) : HeapInv (stress_shared_heap_init_state cap) := by
  refine ⟨?_, ?_, ?_⟩ <;> simp [stress_shared_heap_init_state]

theorem dup_clean_inv (s : SharedHeap) (c : String) (h : HeapInv s) :
    HeapInv (dup_clean s c).2 := by
  cases hf : str_list_find c s.str_list with
  | some p => rw [dup_clean_found s c p hf]; exact h
  | none =>
    by_cases hfree : (s.heap_size : Int) - (s.offset : Int) < ((dup_len c : Nat) : Int)
    · rw [dup_clean_notfound_fail s c hf hfree]
      exact h
    · rw [dup_clean_notfound_success s c hf hfree]
      obtain ⟨h1, h2, h3⟩ := h
      have h16 := roundup_ptr_dup_len_ge c
      refine ⟨?_, ?_, ?_⟩
      · intro e he
        rcases List.mem_cons.mp he with rfl | hmem
        · unfold ptrBytes
          dsimp only
          omega
        · have := h1 e hmem
          dsimp only
          omega
      · refine List.pairwise_cons.mpr ⟨?_, h2⟩
        intro b hb
        have := h1 b hb
        dsimp only
        omega
      · refine List.pairwise_cons.mpr ⟨?_, h3⟩
        intro b hb
        have := str_list_find_none_not_mem hf b hb
        dsimp only
        exact this

theorem dup_run_inv (l : List String) :
    ∀ s : SharedHeap, HeapInv s → HeapInv (dup_run s l).2 := by
  induction l with
  | nil => intro s h; exact h
  | cons c rest ih =>
    intro s h
    exact ih (dup_clean s c).2 (dup_clean_inv s c h)

theorem heap_after_inv (cap : Nat) (l : List String) : HeapInv (heap_after cap l) :=
  dup_run_inv l _ (heap_init_inv cap)

theorem dup_clean_find_stable (s : SharedHeap) (d c : String) (p : Nat)
    (hc : str_list_find c s.str_list = some p) :
    str_list_find c (dup_clean s d).2.str_list = some p := by
  cases hf : str_list_find d s.str_list with
  | some q => rw [dup_clean_found s d q hf]; exact hc
  | none =>
    by_cases hfree : (s.heap_size : Int) - (s.offset : Int) < ((dup_len d : Nat) : Int)
    · rw [dup_clean_notfound_fail s d hf hfree]
      exact hc
    · rw [dup_clean_notfound_success s d hf hfree]
      have hcd : c ≠ d := by
        intro h
        rw [h, hf] at hc
        exact Option.noConfusion hc
      dsimp only
      unfold str_list_find
      simp only [hcd, if_false]
      exact hc

theorem dup_run_find_stable (l : List String) :
    ∀ (s : SharedHeap) (c : String) (p : Nat),
      str_list_find c s.str_list = some p →
      str_list_find c (dup_run s l).2.str_list = some p := by
  induction l with
  | nil => intro s c p h; exact h
  | cons d rest ih =>
    intro s c p h
    exact ih (dup_clean s d).2 c p (dup_clean_find_stable s d c p h)

theorem dup_clean_publish (s : SharedHeap) (c : String) (p : Nat)
    (hr : (dup_clean s c).1 = some p) :
    str_list_find c (dup_clean s c).2.str_list = some p := by
  cases hf : str_list_find c s.str_list with
  | some q =>
    rw [dup_clean_found s c q hf] at hr ⊢
    simp at hr
    rw [hr] at hf
    exact hf
  | none =>
    by_cases hfree : (s.heap_size : Int) - (s.offset : Int) < ((dup_len c : Nat) : Int)
    · rw [dup_clean_notfound_fail s c hf hfree] at hr
      exact absurd hr (by simp)
    · rw [dup_clean_notfound_success s c hf hfree] at hr ⊢
      simp at hr
      dsimp only
      unfold str_list_find
      simp [hr]

/-- A content whose interning has hit out-of-memory: not in the list, and the
remaining capacity is below its allocation size.  Such a content can never be
interned later in the run: the offset only grows and nobody else can publish
an equal string. -/
def OOMStuck (c : String) (s : SharedHeap) : Prop :=
  str_list_find c s.str_list = none ∧
  (s.heap_size : Int) - (s.offset : Int) < ((dup_len c : Nat) : Int)

theorem dup_clean_none_stuck (s : SharedHeap) (c : String)
    (hr : (dup_clean s c).1 = none) :
    OOMStuck c (dup_clean s c).2 ∧ (dup_clean s c).2.offset = s.offset := by
  cases hf : str_list_find c s.str_list with
  | some q =>
    rw [dup_clean_found s c q hf] at hr
    exact absurd hr (by simp)
  | none =>
    by_cases hfree : (s.heap_size : Int) - (s.offset : Int) < ((dup_len c : Nat) : Int)
    · rw [dup_clean_notfound_fail s c hf hfree]
      exact ⟨⟨hf, hfree⟩, rfl⟩
    · rw [dup_clean_notfound_success s c hf hfree] at hr
      exact absurd hr (by simp)

theorem dup_clean_stuck_stable (s : SharedHeap) (d c : String)
    (h : OOMStuck c s) : OOMStuck c (dup_clean s d).2 := by
  obtain ⟨hfindc, hfreec⟩ := h
  cases hf : str_list_find d s.str_list with
  | some q => rw [dup_clean_found s d q hf]; exact ⟨hfindc, hfreec⟩
  | none =>
    by_cases hfree : (s.heap_size : Int) - (s.offset : Int) < ((dup_len d : Nat) : Int)
    · rw [dup_clean_notfound_fail s d hf hfree]
      exact ⟨hfindc, hfreec⟩
    · rw [dup_clean_notfound_success s d hf hfree]
      have hcd : c ≠ d := by
        intro he
        rw [he] at hfreec
        exact hfree hfreec
      constructor
      · dsimp only
        unfold str_list_find
        simp only [hcd, if_false]
        exact hfindc
      · dsimp only
        have : (0 : Int) ≤ (roundup_ptr (dup_len d) : Int) := Int.natCast_nonneg _
        push_cast
        omega

theorem dup_run_stuck_stable (l : List String) :
    ∀ (s : SharedHeap) (c : String), OOMStuck c s → OOMStuck c (dup_run s l).2 := by
  induction l with
  | nil => intro s c h; exact h
  | cons d rest ih =>
    intro s c h
    exact ih (dup_clean s d).2 c (dup_clean_stuck_stable s d c h)

theorem dup_clean_stuck_result (s : SharedHeap) (c : String)
    (h : OOMStuck c s) :
    (dup_clean s c).1 = none ∧ (dup_clean s c).2.offset = s.offset := by
  rw [dup_clean_notfound_fail s c h.1 h.2]
  exact ⟨rfl, rfl⟩

theorem heap_inv_ptr_ne (s : SharedHeap) (h : HeapInv s) {p q : Nat}
    {c d : String} (hp : (p, c) ∈ s.str_list) (hq : (q, d) ∈ s.str_list)
    (hne : c ≠ d) : p ≠ q := by
  have hsym : Symmetric (fun a b : Nat × String => a.1 ≠ b.1) := by
    intro a b hab
    exact hab.symm
  have hpw : s.str_list.Pairwise (fun a b : Nat × String => a.1 ≠ b.1) :=
    h.2.1.imp (fun hab => by omega)
  have hne2 : ((p, c) : Nat × String) ≠ (q, d) := by
    intro he
    exact hne (congrArg Prod.snd he)
  exact hpw.forall hsym hp hq hne2

/-- Claim C2: two interning calls with equal string content, in either order
and with any other interning calls in between, return the same pointer, and
the second call allocates nothing (the offset does not advance); calls with
different content that both return a pointer return different pointers;
interning fifty identical 8-byte strings into a 4096-byte region allocates
exactly one node, returns fifty identical pointers, and advances the offset
by exactly one pointer-rounded block. -/
theorem claim_C2_intern_dedup :
    (∀ (cap : Nat) (pre mid : List String) (c : String),
      (dup_clean (heap_after cap pre) c).1 =
        (dup_clean (dup_run (dup_clean (heap_after cap pre) c).2 mid).2 c).1 ∧
      (dup_clean (dup_run (dup_clean (heap_after cap pre) c).2 mid).2 c).2.offset =
        (dup_run (dup_clean (heap_after cap pre) c).2 mid).2.offset) ∧
    (∀ (cap : Nat) (pre mid : List String) (c d : String) (p q : Nat),
      c ≠ d →
      (dup_clean (heap_after cap pre) c).1 = some p →
      (dup_clean (dup_run (dup_clean (heap_after cap pre) c).2 mid).2 d).1 = some q →
      p ≠ q) ∧
    ((dup_run (stress_shared_heap_init_state 4096) (List.replicate 50 "abcdefgh")).1 =
        List.replicate 50 (some 8) ∧
     (dup_run (stress_shared_heap_init_state 4096) (List.replicate 50 "abcdefgh")).2.str_list =
        [(8, "abcdefgh")] ∧
     (dup_run (stress_shared_heap_init_state 4096) (List.replicate 50 "abcdefgh")).2.offset = 24) := by
  refine ⟨?_, ?_, ?_, ?_, ?_⟩
  · intro cap pre mid c
    cases hr : (dup_clean (heap_after cap pre) c).1 with
    | some p =>
      have hpub := dup_clean_publish _ c p hr
      have hst := dup_run_find_stable mid _ c p hpub
      rw [dup_clean_found _ c p hst]
      exact ⟨rfl, rfl⟩
    | none =>
      have hstuck := dup_clean_none_stuck _ c hr
      have hst := dup_run_stuck_stable mid _ c hstuck.1
      have hres := dup_clean_stuck_result _ c hst
      exact ⟨hres.1.symm, hres.2⟩
  · intro cap pre mid c d p q hcd h1 h2
    have hpub1 := dup_clean_publish _ c p h1
    have hst1 := dup_run_find_stable mid _ c p hpub1
    have hst2 := dup_clean_find_stable _ d c p hst1
    have hpub2 := dup_clean_publish _ d q h2
    have hinv : HeapInv (dup_clean (dup_run (dup_clean (heap_after cap pre) c).2 mid).2 d).2 :=
      dup_clean_inv _ d (dup_run_inv mid _ (dup_clean_inv _ c (heap_after_inv cap pre)))
    exact heap_inv_ptr_ne _ hinv (str_list_find_mem hst2) (str_list_find_mem hpub2) hcd
  · decide
  · decide
  · decide

theorem claim_C2_witness :
    ("a" ≠ "b") ∧
    ((dup_clean (heap_after 4096 []) "a").1 = some 8) ∧
    ((dup_clean (dup_run (dup_clean (heap_after 4096 []) "a").2 []).2 "b").1 = some 24) ∧
    (8 : Nat) ≠ 24 :=
  ⟨by decide, by decide, by decide,
   claim_C2_intern_dedup.2.1 4096 [] [] "a" "b" 8 24 (by decide) (by decide) (by decide)⟩

/-! ## Fault sandbox (src/stress-sysbadaddr.c) -/

/-- Outcome of invoking one bad_syscall in the sandboxed child of
stress_do_syscall: the call returns with a value and the then-current errno,
the call faults with one of the handled fatal signals, or it hangs until the
100 ms ITIMER_REAL watchdog delivers SIGALRM (also a handled signal). -/
inductive SyscallOutcome where
  | returns (ret : Int) (errno : Nat)
  | signaled
  | hangs
  deriving Repr, DecidableEq

/-- Exit code used by stress_badhandler (lines 103-108): every handled
signal, the watchdog's SIGALRM included, makes the child _exit(1). -/
def watchdog_abort_code : Nat := 1

/-- Value the child passes to _exit after the invocation (lines 562-565):
`ret = bad_syscall(addr); if (ret < 0) ret = errno; _exit(ret);`.  A handled
signal or a watchdog expiry instead exits through stress_badhandler with
code 1. -/
def child_exit_code : SyscallOutcome → Int
  | .returns ret errno => if ret < 0 then (errno : Int) else ret
  | .signaled => (watchdog_abort_code : Int)
  | .hangs => (watchdog_abort_code : Int)

/-- bad_open (lines 278-287): returns the fd produced by
open(addr, O_RDONLY), closing it first when it is not -1.  `openRet` is
open's return value. -/
def bad_open (openRet : Int) : Int := openRet

/-- bad_read (lines 306-316): opens /dev/zero and returns the result of
read(fd, addr, 1024); returns 0 when even the open fails.  `openOk` is the
open outcome and `readRet` the read result. -/
def bad_read (openOk : Bool) (readRet : Int) : Int :=
  if openOk then readRet else 0

/-- WEXITSTATUS of a normally exited child: the operating system keeps only
the low 8 bits of the value the child passed to _exit. -/
def wexitstatus_of_exit (exitArg : Int) : Nat := (exitArg % 256).toNat

/-- Value stress_do_syscall hands back to its caller (lines 566-582):
`rc = WEXITSTATUS(status)`. -/
def stress_do_syscall_rc (o : SyscallOutcome) : Nat :=
  wexitstatus_of_exit (child_exit_code o)

/-- Counterexample to claim C3 as stated: a successful operation does not
always exit with status 0.  bad_open with a successful open (fd 3) succeeds
(its result is not -1) yet the child exits with code 3, not 0, because the
child exits with the operation's non-negative return value. -/
theorem claim_C3_counterexample :
    bad_open 3 ≠ -1 ∧ child_exit_code (.returns (bad_open 3) 0) ≠ 0 := by
  constructor <;> decide

/-- Claim C3 (amended): after the hazardous operation is invoked the child
exits with the operation's return value when that value is non-negative
(status 0 exactly for operations returning 0 on success), with the call's
error code (errno) when the return value is negative, and with the
watchdog's abort code 1 when it hangs or faults. -/
theorem claim_C3_child_exit (ret : Int) (errno : Nat) :
    (ret < 0 → child_exit_code (.returns ret errno) = (errno : Int)) ∧
    (0 ≤ ret → child_exit_code (.returns ret errno) = ret) ∧
    child_exit_code .hangs = (watchdog_abort_code : Int) ∧
    child_exit_code .signaled = (watchdog_abort_code : Int) := by
  refine ⟨?_, ?_, rfl, rfl⟩
  · intro h
    simp [child_exit_code, h]
  · intro h
    simp [child_exit_code, Int.not_lt.mpr h]

theorem claim_C3_witness :
    ((-1 : Int) < 0) ∧ child_exit_code (.returns (-1) 22) = (22 : Int) :=
  ⟨by decide, (claim_C3_child_exit (-1) 22).1 (by decide)⟩

/-- Claim C10: the outcome value a trial returns to the caller is the child's
exit value reduced modulo 256 (the wait-status exit field), so exit codes
congruent modulo 256 are indistinguishable; in particular the 1024-byte
read count returned by a successful bad_read yields the same classification
as an exit with 0 (Success). -/
theorem claim_C10_rc_mod256 :
    (∀ o : SyscallOutcome,
        stress_do_syscall_rc o = ((child_exit_code o) % 256).toNat) ∧
    (∀ a b : Int, a % 256 = b % 256 →
        wexitstatus_of_exit a = wexitstatus_of_exit b) ∧
    stress_do_syscall_rc (.returns (bad_read true 1024) 0) =
      stress_do_syscall_rc (.returns 0 0) := by
  refine ⟨fun o => rfl, ?_, by decide⟩
  intro a b h
  unfold wexitstatus_of_exit
  rw [h]

theorem claim_C10_witness :
    ((1024 : Int) % 256 = (0 : Int) % 256) ∧
    wexitstatus_of_exit 1024 = wexitstatus_of_exit 0 :=
  ⟨by decide, claim_C10_rc_mod256.2.1 1024 0 (by decide)⟩

/-! ## Concurrent sysfs walker (src/stress-sysfs.c) -/

/-- Initial value of the shared cursor: dummy_path, line 39, installed at
line 418 before the traversal starts. -/
def dummy_path : String := "/sys/kernel/notes"

/-- Walker-run state observable by the recovery path: the segv_abort flag,
the shared cursor sysfs_path, and how many times the SIGSEGV handler ran. -/
structure SysfsRun where
  segv_abort : Bool
  sysfs_path : String
  abort_count : Nat
  deriving Repr, DecidableEq

/-- stress_segv_handler (lines 48-54): sets segv_abort and transfers control
to the single saved sigsetjmp recovery point via siglongjmp. -/
def stress_segv_handler (s : SysfsRun) : SysfsRun :=
  { s with segv_abort := true, abort_count := s.abort_count + 1 }

/-- One observable event of a walker run: the walker publishing a new cursor
path under the spinlock (stress_sys_dir, lines 372-376), or an in-process
segmentation fault. -/
inductive WalkEvent where
  | publish (p : String)
  | fault
  deriving Repr, DecidableEq

/-- Standard exit statuses used by stress_sysfs. -/
def EXIT_SUCCESS : Nat := 0

/-- Status returned at line 413 when the sigsetjmp recovery point is
re-entered after a segmentation fault. -/
def EXIT_FAILURE : Nat := 1

/-- Abstraction of the stress_sysfs run (lines 401-476) as consumption of an
event trace.  A publish updates the shared cursor; the first fault runs
stress_segv_handler, control re-enters at the single saved recovery point
(sigsetjmp at line 409, armed once before the loop), which reports the
current cursor value and returns EXIT_FAILURE without re-entering the
traversal loop, so every event after the fault is ignored.  A fault-free
trace ends with EXIT_SUCCESS. -/
def stress_sysfs_run (s : SysfsRun) : List WalkEvent → Nat × SysfsRun
  | [] => (EXIT_SUCCESS, s)
  | .publish p :: rest => stress_sysfs_run { s with sysfs_path := p } rest
  | .fault :: _ => (EXIT_FAILURE, stress_segv_handler s)

/-- Run state as initialised at lines 408-423: no abort recorded, cursor at
dummy_path. -/
def sysfs_init_run : SysfsRun :=
  { segv_abort := false, sysfs_path := dummy_path, abort_count := 0 }

theorem sysfs_run_fault (pubs : List String) :
    ∀ (s : SysfsRun) (rest : List WalkEvent),
      stress_sysfs_run s (pubs.map WalkEvent.publish ++ WalkEvent.fault :: rest) =
        (EXIT_FAILURE,
         stress_segv_handler { s with sysfs_path := pubs.getLastD s.sysfs_path }) := by
  induction pubs with
  | nil => intro s rest; rfl
  | cons p ps ih =>
    intro s rest
    simp only [List.map_cons, List.cons_append, List.getLastD_cons]
    exact ih { s with sysfs_path := p } rest

/-- Claim C4: when a segmentation fault occurs during a walker run, the
handler transfers control to the single saved recovery point, the run is
marked Aborted exactly once (one handler invocation, segv_abort set), the
run ends with the failure status reporting the cursor's last published path
value, and the run is not retried (all events after the fault are
ignored). -/
theorem claim_C4_segv_abort (pubs : List String) (rest : List WalkEvent) :
    (stress_sysfs_run sysfs_init_run
        (pubs.map WalkEvent.publish ++ WalkEvent.fault :: rest)).1 = EXIT_FAILURE ∧
    (stress_sysfs_run sysfs_init_run
        (pubs.map WalkEvent.publish ++ WalkEvent.fault :: rest)).2.sysfs_path =
      pubs.getLastD dummy_path ∧
    (stress_sysfs_run sysfs_init_run
        (pubs.map WalkEvent.publish ++ WalkEvent.fault :: rest)).2.abort_count = 1 ∧
    (stress_sysfs_run sysfs_init_run
        (pubs.map WalkEvent.publish ++ WalkEvent.fault :: rest)).2.segv_abort = true ∧
    stress_sysfs_run sysfs_init_run
        (pubs.map WalkEvent.publish ++ WalkEvent.fault :: rest) =
      stress_sysfs_run sysfs_init_run (pubs.map WalkEvent.publish ++ [WalkEvent.fault]) := by
  rw [sysfs_run_fault pubs sysfs_init_run rest,
      sysfs_run_fault pubs sysfs_init_run []]
  exact ⟨rfl, rfl, rfl, rfl, rfl⟩

/-- Directory entry as seen by stress_sys_dir through scandir and stat:
the dirent name, its d_type, the stat st_mode bits, and for a directory its
children. -/
inductive SysEntry where
  | dir (name : String) (mode : Nat) (entries : List SysEntry)
  | reg (name : String) (mode : Nat)
  | other (name : String)

/-- Permission mask applied at lines 318, 358 and 369:
S_IRGRP | S_IWGRP | S_IROTH | S_IWOTH = 0o66 = 54. -/
def sysfs_mode_flags : Nat := 54

/-- Test of is_dot_filename at line 343.  Modelled from the spec: the helper
lives outside these sources; it skips the self and parent directory
entries "." and "..". -/
def is_dot_filename (name : String) : Bool := name = "." || name = ".."

/-- Occurrence of `needle` as a contiguous run of `l`, modelling C strstr
over the byte string (characters here). -/
def contains_sub (needle : List Char) : List Char → Bool
  | [] => needle.isEmpty
  | c :: cs => needle.isPrefixOf (c :: cs) || contains_sub needle cs

/-- strstr(hay, needle) != NULL. -/
def strstr_hit (hay needle : String) : Bool :=
  contains_sub needle.toList hay.toList

/-- stress_sys_skip (lines 288-304): deliberately skip paths containing both
"PNP0A03" and "VMBUS" (known false-positive-prone Azure VMBUS channel
entries). -/
def stress_sys_skip (path : String) : Bool :=
  strstr_hit path "PNP0A03" && strstr_hit path "VMBUS"

/-- stress_sys_dir (lines 310-394), reduced to its visiting structure with
keep_stressing always true and no fault: returns the paths it visits
(counted readable directories and published regular files) in scandir
order.  A call with depth > 20 returns immediately (line 325); recursion
into a subdirectory uses depth + 1 (line 362); dot entries, denylisted
paths and entries without group/other permission bits are skipped. -/
def stress_sys_dir : List SysEntry → String → Bool → Nat → List String
  | entries, path, recurse, depth =>
    if depth > 20 then []
    else
      match entries with
      | [] => []
      | e :: rest =>
        (match e with
         | .dir name mode sub =>
           if is_dot_filename name then []
           else if stress_sys_skip (path ++ "/" ++ name) then []
           else if ¬ recurse then []
           else if Nat.land mode sysfs_mode_flags = 0 then []
           else (path ++ "/" ++ name) ::
             stress_sys_dir sub (path ++ "/" ++ name) recurse (depth + 1)
         | .reg name mode =>
           if is_dot_filename name then []
           else if stress_sys_skip (path ++ "/" ++ name) then []
           else if Nat.land mode sysfs_mode_flags = 0 then []
           else [path ++ "/" ++ name]
         | .other _ => []) ++ stress_sys_dir rest path recurse depth

/-- Claim C7: the walker's recursive traversal is depth-bounded: a call with
depth greater than the fixed bound 20 returns immediately without visiting
any entry, and the recursive call into an eligible subdirectory is made with
the depth argument increased by exactly one; the model being a total
function, one traversal pass over any finite tree terminates. -/
theorem claim_C7_depth_bound :
    (∀ (entries : List SysEntry) (path : String) (recurse : Bool) (depth : Nat),
       depth > 20 → stress_sys_dir entries path recurse depth = []) ∧
    (∀ (name : String) (mode : Nat) (sub rest : List SysEntry)
       (path : String) (depth : Nat),
       depth ≤ 20 →
       is_dot_filename name = false →
       stress_sys_skip (path ++ "/" ++ name) = false →
       Nat.land mode sysfs_mode_flags ≠ 0 →
       stress_sys_dir (SysEntry.dir name mode sub :: rest) path true depth =
         ((path ++ "/" ++ name) ::
            stress_sys_dir sub (path ++ "/" ++ name) true (depth + 1)) ++
           stress_sys_dir rest path true depth) := by
  constructor
  · intro entries path recurse depth h
    rw [stress_sys_dir.eq_def]
    simp [h]
  · intro name mode sub rest path depth hd hdot hskip hmode
    have hd2 : ¬ depth > 20 := by omega
    rw [stress_sys_dir.eq_def]
    simp [hd2, hdot, hskip, hmode]

theorem claim_C7_witness :
    ((21 : Nat) > 20 ∧ stress_sys_dir [] "/sys" true 21 = []) ∧
    ((0 : Nat) ≤ 20 ∧ is_dot_filename "kernel" = false ∧
     stress_sys_skip ("/sys" ++ "/" ++ "kernel") = false ∧
     Nat.land 54 sysfs_mode_flags ≠ 0 ∧
     stress_sys_dir (SysEntry.dir "kernel" 54 [] :: []) "/sys" true 0 =
       (("/sys" ++ "/" ++ "kernel") ::
          stress_sys_dir [] ("/sys" ++ "/" ++ "kernel") true (0 + 1)) ++
         stress_sys_dir [] "/sys" true 0) :=
  ⟨⟨by decide, claim_C7_depth_bound.1 [] "/sys" true 21 (by decide)⟩,
   ⟨by decide, by decide, by decide, by decide,
    claim_C7_depth_bound.2 "kernel" 54 [] [] "/sys" 0 (by decide) (by decide)
      (by decide) (by decide)⟩⟩


/-- Probe actions stress_sys_rw can attempt against the current cursor
target: the read-only opens, the randomly sized read stage, the zero-sized
read, the read into the under-permissioned buffer, the write-only open and
the zero-sized write. -/
inductive ProbeAction where
  | openRead
  | readSized
  | readZero
  | readBad
  | openWrite
  | writeZero
  deriving Repr, DecidableEq

/-- Outcome of the randomly-sized read loop (lines 143-163): it either falls
through to the fstat/close path, ends the iteration through the kmsg drain
path, or jumps to the next iteration on the time budget. -/
inductive ReadLoopOutcome where
  | fellThrough
  | toDrain
  | toNext
  deriving Repr, DecidableEq

/-- Environment of one iteration of the stress_sys_rw target loop: the
outcome of every fallible step and every time-budget check, in program
order (line numbers refer to src/stress-sysfs.c). -/
structure RwEnv where
  open1_ok : Bool
  slow_after_open : Bool
  readloop : ReadLoopOutcome
  slow_after_reads : Bool
  open2_ok : Bool
  zero_read_neg : Bool
  slow_after_zero : Bool
  drain_after_zero : Bool
  bad_read_neg : Bool
  drain_after_bad : Bool
  slow_at_err : Bool
  openw_ok : Bool
  deriving Repr, DecidableEq

/-- ctxt_t fields driving stress_sys_rw: `writeable` (line 421:
geteuid() != 0) and whether the badbuf mapping exists (line 204 checks
ctxt->badbuf before the bad-buffer read). -/
structure RwCtxt where
  writeable : Bool
  badbuf : Bool
  deriving Repr, DecidableEq

/-- ctxt.writeable as computed by stress_sysfs at line 421:
`(geteuid() != 0)`. -/
def sysfs_writeable (euid : Nat) : Bool := euid ≠ 0

/-- Write block of stress_sys_rw (lines 219-235): executed only when
ctxt->writeable is set; attempts open(path, O_WRONLY | O_NONBLOCK) and, when
that open succeeds, a zero-sized write. -/
def rw_write_block (writeable openw_ok : Bool) : List ProbeAction :=
  if writeable then
    if openw_ok then [ProbeAction.openWrite, ProbeAction.writeZero]
    else [ProbeAction.openWrite]
  else []

/-- Continuation at the err label (lines 214-216): close the file, re-check
the time budget, and fall into the write block. -/
def rw_from_err (ctxt : RwCtxt) (env : RwEnv) : List ProbeAction :=
  if env.slow_at_err then [] else rw_write_block ctxt.writeable env.openw_ok

/-- Probe actions attempted by one iteration of the while loop of
stress_sys_rw (lines 120-247), in program order.  Mirrors the goto
structure: a failing or slow step jumps to `next` (ending the iteration
without the later probes), the kmsg-drain checks jump to `drain`, and the
err label closes, re-checks the time budget, and only then reaches the
write block. -/
def stress_sys_rw_iter (ctxt : RwCtxt) (env : RwEnv) : List ProbeAction :=
  if ¬ env.open1_ok then [ProbeAction.openRead]
  else if env.slow_after_open then [ProbeAction.openRead]
  else
    match env.readloop with
    | .toDrain => [ProbeAction.openRead, ProbeAction.readSized]
    | .toNext => [ProbeAction.openRead, ProbeAction.readSized]
    | .fellThrough =>
      if env.slow_after_reads then [ProbeAction.openRead, ProbeAction.readSized]
      else if ¬ env.open2_ok then
        [ProbeAction.openRead, ProbeAction.readSized, ProbeAction.openRead]
      else
        [ProbeAction.openRead, ProbeAction.readSized, ProbeAction.openRead,
         ProbeAction.readZero] ++
        (if env.zero_read_neg then rw_from_err ctxt env
         else if env.slow_after_zero then []
         else if env.drain_after_zero then []
         else if ctxt.badbuf then
           ProbeAction.readBad ::
             (if env.bad_read_neg then rw_from_err ctxt env
              else if env.drain_after_bad then []
              else rw_from_err ctxt env)
         else if env.drain_after_bad then []
         else rw_from_err ctxt env)

set_option maxHeartbeats 1000000 in
theorem rw_iter_mem (ctxt : RwCtxt) (env : RwEnv) :
    ∀ a ∈ stress_sys_rw_iter ctxt env,
      a = ProbeAction.openRead ∨ a = ProbeAction.readSized ∨
      a = ProbeAction.readZero ∨ a = ProbeAction.readBad ∨
      a ∈ rw_write_block ctxt.writeable env.openw_ok := by
  intro a ha
  unfold stress_sys_rw_iter rw_from_err at ha
  repeat' split at ha
  all_goals simp at ha
  all_goals tauto

theorem rw_iter_no_write (ctxt : RwCtxt) (env : RwEnv)
    (hw : ctxt.writeable = false) :
    ProbeAction.writeZero ∉ stress_sys_rw_iter ctxt env ∧
    ProbeAction.openWrite ∉ stress_sys_rw_iter ctxt env := by
  constructor <;> intro hmem <;>
    rcases rw_iter_mem ctxt env _ hmem with h | h | h | h | h <;>
      simp [rw_write_block, hw] at h

/-- Counterexample to claim C8 as stated: the gating is not an "if and only
if".  A worker with effective uid 1000 (not elevated, so writeable is true)
whose open of the cursor target fails attempts no zero-length write probe at
all in that iteration. -/
theorem claim_C8_counterexample :
    sysfs_writeable 1000 = true ∧
    ProbeAction.writeZero ∉
      stress_sys_rw_iter { writeable := sysfs_writeable 1000, badbuf := true }
        { open1_ok := false, slow_after_open := false,
          readloop := ReadLoopOutcome.fellThrough, slow_after_reads := false,
          open2_ok := true, zero_read_neg := false, slow_after_zero := false,
          drain_after_zero := false, bad_read_neg := false,
          drain_after_bad := false, slow_at_err := false, openw_ok := true } := by
  constructor <;> decide

/-- Claim C8 (amended): a worker's zero-length write probe is attempted only
if the process is not running with elevated privilege (effective uid
nonzero); when running as root (writeable false) no write probe of any kind
- neither the write-only open nor the zero-length write - is performed; a
non-root worker does attempt the zero-length write when the earlier probe
stages complete within the time budget and the write-open succeeds. -/
theorem claim_C8_write_gating :
    (∀ (euid : Nat) (b : Bool) (env : RwEnv),
        ProbeAction.writeZero ∈
          stress_sys_rw_iter { writeable := sysfs_writeable euid, badbuf := b } env →
        euid ≠ 0) ∧
    (∀ (ctxt : RwCtxt) (env : RwEnv), ctxt.writeable = false →
        ProbeAction.writeZero ∉ stress_sys_rw_iter ctxt env ∧
        ProbeAction.openWrite ∉ stress_sys_rw_iter ctxt env) ∧
    ProbeAction.writeZero ∈
      stress_sys_rw_iter { writeable := true, badbuf := true }
        { open1_ok := true, slow_after_open := false,
          readloop := ReadLoopOutcome.fellThrough, slow_after_reads := false,
          open2_ok := true, zero_read_neg := false, slow_after_zero := false,
          drain_after_zero := false, bad_read_neg := false,
          drain_after_bad := false, slow_at_err := false, openw_ok := true } := by
  refine ⟨?_, ?_, by decide⟩
  · intro euid b env hmem h0
    subst h0
    exact (rw_iter_no_write { writeable := sysfs_writeable 0, badbuf := b } env
      rfl).1 hmem
  · intro ctxt env hw
    exact rw_iter_no_write ctxt env hw

theorem claim_C8_witness :
    (ProbeAction.writeZero ∈
       stress_sys_rw_iter { writeable := sysfs_writeable 1000, badbuf := true }
         { open1_ok := true, slow_after_open := false,
           readloop := ReadLoopOutcome.fellThrough, slow_after_reads := false,
           open2_ok := true, zero_read_neg := false, slow_after_zero := false,
           drain_after_zero := false, bad_read_neg := false,
           drain_after_bad := false, slow_at_err := false, openw_ok := true }) ∧
    (1000 : Nat) ≠ 0 :=
  ⟨by decide,
   claim_C8_write_gating.1 1000 true
     { open1_ok := true, slow_after_open := false,
       readloop := ReadLoopOutcome.fellThrough, slow_after_reads := false,
       open2_ok := true, zero_read_neg := false, slow_after_zero := false,
       drain_after_zero := false, bad_read_neg := false,
       drain_after_bad := false, slow_at_err := false, openw_ok := true }
     (by decide)⟩

end StressNG
